import Mathlib

/-!
Shallow embedding of the embedding/search pipeline of
`controllers/chatController.js` (voxen backend), together with proofs of the
specified properties.

Conventions of the embedding:
* JavaScript numbers are modelled as real numbers (`ℝ`); `Math.sqrt` is
  `Real.sqrt`.
* A JavaScript value that may be `null`/`undefined` is modelled as an
  `Option`.
* Database rows are modelled as Lean structures, a table as a `List` of rows;
  timestamps (`NOW()`) are `Nat` parameters.
* The `embedding_vector TEXT` column stores `JSON.stringify` of the vector and
  is read back with `JSON.parse`; the model identifies the serialized string
  with the vector itself (`List ℝ`), and an unparseable stored vector with
  `Option.none` where the code catches the parse error.
-/

namespace Voxen

/-- The constant `EMBEDDING_MODEL` of chatController.js (line 12). -/
def EMBEDDING_MODEL : String := "nomic-embed-text:latest"

/-- `cosineSimilarity(vecA, vecB)` of chatController.js lines 106-125.

```js
function cosineSimilarity(vecA, vecB) {
  if (!vecA || !vecB || vecA.length !== vecB.length) return 0;
  let dotProduct = 0; let normA = 0; let normB = 0;
  for (let i = 0; i < vecA.length; i++) {
    dotProduct += vecA[i] * vecB[i];
    normA += vecA[i] * vecA[i];
    normB += vecB[i] * vecB[i];
  }
  normA = Math.sqrt(normA); normB = Math.sqrt(normB);
  if (normA === 0 || normB === 0) return 0;
  return dotProduct / (normA * normB);
}
```

An absent (`null`/`undefined`) argument is `none`; the three accumulators of
the `for` loop over `i < vecA.length` are the three `Finset.range`-sums. -/
noncomputable def cosineSimilarity : Option (List ℝ) → Option (List ℝ) → ℝ
  | none, _ => 0
  | some _, none => 0
  | some a, some b =>
    if a.length ≠ b.length then 0
    else
      let dotProduct := ∑ i ∈ Finset.range a.length, a.getD i 0 * b.getD i 0
      let normA := Real.sqrt (∑ i ∈ Finset.range a.length, a.getD i 0 * a.getD i 0)
      let normB := Real.sqrt (∑ i ∈ Finset.range a.length, b.getD i 0 * b.getD i 0)
      if normA = 0 ∨ normB = 0 then 0 else dotProduct / (normA * normB)

theorem cosineSimilarity_none_left (b : Option (List ℝ)) : cosineSimilarity none b = 0 := by
  rfl

theorem cosineSimilarity_none_right (a : Option (List ℝ)) : cosineSimilarity a none = 0 := by
  cases a <;> rfl

theorem cosineSimilarity_some_some (a b : List ℝ) :
    cosineSimilarity (some a) (some b) =
      if a.length ≠ b.length then 0
      else
        let dotProduct := ∑ i ∈ Finset.range a.length, a.getD i 0 * b.getD i 0
        let normA := Real.sqrt (∑ i ∈ Finset.range a.length, a.getD i 0 * a.getD i 0)
        let normB := Real.sqrt (∑ i ∈ Finset.range a.length, b.getD i 0 * b.getD i 0)
        if normA = 0 ∨ normB = 0 then 0 else dotProduct / (normA * normB) := by
  rfl

/-- The `dotProduct` accumulator of the loop of `cosineSimilarity`. -/
noncomputable def dotP (a b : List ℝ) : ℝ :=
  ∑ i ∈ Finset.range a.length, a.getD i 0 * b.getD i 0

/-- The `normA`/`normB` accumulators of the loop of `cosineSimilarity`
(before taking the square root): the loop bound `n` is `vecA.length`. -/
noncomputable def sumSq (n : Nat) (l : List ℝ) : ℝ :=
  ∑ i ∈ Finset.range n, l.getD i 0 * l.getD i 0

theorem cosineSimilarity_eq (a b : List ℝ) (hlen : a.length = b.length) :
    cosineSimilarity (some a) (some b) =
      if Real.sqrt (sumSq a.length a) = 0 ∨ Real.sqrt (sumSq a.length b) = 0 then 0
      else dotP a b / (Real.sqrt (sumSq a.length a) * Real.sqrt (sumSq a.length b)) := by
  rw [cosineSimilarity_some_some, if_neg (by simp [hlen])]
  rfl

theorem sumSq_nonneg (n : Nat) (l : List ℝ) : 0 ≤ sumSq n l :=
  Finset.sum_nonneg fun _ _ => mul_self_nonneg _

theorem dotP_comm (a b : List ℝ) (hlen : a.length = b.length) : dotP a b = dotP b a := by
  unfold dotP
  rw [← hlen]
  exact Finset.sum_congr rfl fun i _ => mul_comm _ _

theorem sumSq_zero_of_all_zero (n : Nat) (l : List ℝ) (h : ∀ x ∈ l, x = 0) :
    sumSq n l = 0 := by
  unfold sumSq
  refine Finset.sum_eq_zero fun i _ => ?_
  rcases Nat.lt_or_ge i l.length with hi | hi
  · rw [List.getD_eq_getElem l 0 hi, h _ (List.getElem_mem hi)]
    ring
  · rw [List.getD_eq_default l 0 hi]
    ring

theorem cauchy_schwarz_dotP (a b : List ℝ) :
    dotP a b * dotP a b ≤ sumSq a.length a * sumSq a.length b := by
  have h := Finset.sum_mul_sq_le_sq_mul_sq (Finset.range a.length)
    (fun i => a.getD i 0) (fun i => b.getD i 0)
  simpa [dotP, sumSq, pow_two] using h

theorem abs_dotP_le (a b : List ℝ) :
    |dotP a b| ≤ Real.sqrt (sumSq a.length a) * Real.sqrt (sumSq a.length b) := by
  have h1 : |dotP a b| = Real.sqrt (dotP a b * dotP a b) :=
    (Real.sqrt_mul_self_eq_abs _).symm
  rw [h1, ← Real.sqrt_mul (sumSq_nonneg _ _)]
  exact Real.sqrt_le_sqrt (cauchy_schwarz_dotP a b)

/-- C6: `cosineSimilarity(a, b)` returns 0 whenever either input is absent,
or the two vectors' lengths differ, or either vector has zero magnitude
(all-zero vector); these are defined degenerate results, not errors. -/
theorem cosineSimilarity_degenerate :
    (∀ b, cosineSimilarity none b = 0) ∧
    (∀ a, cosineSimilarity a none = 0) ∧
    (∀ a b : List ℝ, a.length ≠ b.length → cosineSimilarity (some a) (some b) = 0) ∧
    (∀ a b : List ℝ, (∀ x ∈ a, x = 0) → cosineSimilarity (some a) (some b) = 0) ∧
    (∀ a b : List ℝ, (∀ x ∈ b, x = 0) → cosineSimilarity (some a) (some b) = 0) := by
  refine ⟨fun b => rfl, fun a => by cases a <;> rfl, fun a b h => ?_, fun a b h => ?_,
    fun a b h => ?_⟩
  · rw [cosineSimilarity_some_some, if_pos h]
  · rcases Nat.decEq a.length b.length with hlen | hlen
    · rw [cosineSimilarity_some_some, if_pos hlen]
    · rw [cosineSimilarity_eq a b hlen,
        if_pos (Or.inl (by rw [sumSq_zero_of_all_zero _ _ h, Real.sqrt_zero]))]
  · rcases Nat.decEq a.length b.length with hlen | hlen
    · rw [cosineSimilarity_some_some, if_pos hlen]
    · rw [cosineSimilarity_eq a b hlen,
        if_pos (Or.inr (by rw [sumSq_zero_of_all_zero _ _ h, Real.sqrt_zero]))]

/-- Closed witness for C6 at concrete inputs. -/
theorem cosineSimilarity_degenerate_witness :
    cosineSimilarity (some [(1 : ℝ)]) (some [0]) = 0 :=
  cosineSimilarity_degenerate.2.2.2.2 [(1 : ℝ)] [0] (by simp)

/-- C7: for all vectors `a` and `b` of equal positive length,
`cosineSimilarity(a, b) == cosineSimilarity(b, a)` and the result lies in
`[-1, 1]`. -/
theorem cosineSimilarity_symm_and_bounded (a b : List ℝ) (hlen : a.length = b.length)
    (_hpos : 0 < a.length) :
    cosineSimilarity (some a) (some b) = cosineSimilarity (some b) (some a) ∧
    -1 ≤ cosineSimilarity (some a) (some b) ∧ cosineSimilarity (some a) (some b) ≤ 1 := by
  have hsymm : cosineSimilarity (some a) (some b) = cosineSimilarity (some b) (some a) := by
    rw [cosineSimilarity_eq a b hlen, cosineSimilarity_eq b a hlen.symm, ← hlen]
    exact if_congr or_comm rfl (by rw [dotP_comm a b hlen, mul_comm])
  refine ⟨hsymm, ?_⟩
  rw [cosineSimilarity_eq a b hlen]
  by_cases hz : Real.sqrt (sumSq a.length a) = 0 ∨ Real.sqrt (sumSq a.length b) = 0
  · rw [if_pos hz]
    norm_num
  · rw [if_neg hz]
    push_neg at hz
    have hA : 0 < Real.sqrt (sumSq a.length a) :=
      (Real.sqrt_nonneg _).lt_of_ne (Ne.symm hz.1)
    have hB : 0 < Real.sqrt (sumSq a.length b) :=
      (Real.sqrt_nonneg _).lt_of_ne (Ne.symm hz.2)
    have habs : |dotP a b / (Real.sqrt (sumSq a.length a) * Real.sqrt (sumSq a.length b))| ≤ 1 := by
      rw [abs_div, abs_of_pos (mul_pos hA hB)]
      exact (div_le_one (mul_pos hA hB)).mpr (abs_dotP_le a b)
    exact abs_le.mp habs

/-- Closed witness for C7 at concrete inputs. -/
theorem cosineSimilarity_symm_and_bounded_witness :
    cosineSimilarity (some [(1 : ℝ), 2]) (some [3, 4]) =
      cosineSimilarity (some [3, 4]) (some [(1 : ℝ), 2]) ∧
    -1 ≤ cosineSimilarity (some [(1 : ℝ), 2]) (some [3, 4]) ∧
    cosineSimilarity (some [(1 : ℝ), 2]) (some [3, 4]) ≤ 1 :=
  cosineSimilarity_symm_and_bounded [(1 : ℝ), 2] [3, 4] rfl (by decide)

/-!
### The embeddings table and `storeEmbedding`

Schema (config/db.js / test-store-embedding.js `createTables`):
`embeddings (id SERIAL PRIMARY KEY, message_id INTEGER UNIQUE, embedding_vector TEXT,
model_name VARCHAR, created_at TIMESTAMP, updated_at TIMESTAMP)`.
-/

/-- One row of the `embeddings` table.  `embedding_vector` holds the
JSON-serialized vector; the model identifies the serialized text with the
vector itself (the spec requires serialization to be a lossless round-trip). -/
structure EmbRow where
  id : Nat
  message_id : Nat
  embedding_vector : List ℝ
  model_name : String
  created_at : Nat
  updated_at : Nat

instance : Inhabited EmbRow := ⟨⟨0, 0, [], "", 0, 0⟩⟩

/-- The SQL statement issued by `storeEmbedding` (chatController.js lines 67-76):

```sql
INSERT INTO embeddings (message_id, embedding_vector, model_name, created_at, updated_at)
VALUES ($1, $2, $3, NOW(), NOW())
ON CONFLICT (message_id)
DO UPDATE SET embedding_vector = EXCLUDED.embedding_vector,
              model_name = EXCLUDED.model_name,
              updated_at = NOW()
```

`now` models `NOW()`; `freshId` models the next `SERIAL` value.  Because
`message_id` is `UNIQUE`, a conflicting insert updates the conflicting
row(s) in place; a non-conflicting insert appends a fresh row. -/
def upsertEmbedding (st : List EmbRow) (messageId : Nat) (vec : List ℝ) (modelName : String)
    (now : Nat) (freshId : Nat) : List EmbRow :=
  if st.any (fun r => r.message_id == messageId) then
    st.map (fun r =>
      if r.message_id = messageId then
        { r with embedding_vector := vec, model_name := modelName, updated_at := now }
      else r)
  else
    st ++ [{ id := freshId, message_id := messageId, embedding_vector := vec,
             model_name := modelName, created_at := now, updated_at := now }]

/-- `storeEmbedding(messageId, embedding)` (chatController.js lines 63-84):
serializes the vector and issues the upsert above with
`model_name = EMBEDDING_MODEL`; any database error is caught and surfaced
only as the returned boolean (`true` on success, `false` on failure, never an
exception).  `dbOk` is the oracle for whether the database call succeeds. -/
def storeEmbedding (dbOk : Bool) (st : List EmbRow) (messageId : Nat) (embedding : List ℝ)
    (now freshId : Nat) : List EmbRow × Bool :=
  if dbOk then (upsertEmbedding st messageId embedding EMBEDDING_MODEL now freshId, true)
  else (st, false)

theorem countP_upsertEmbedding (st : List EmbRow) (mid : Nat) (v : List ℝ) (m : String)
    (t i : Nat) :
    (upsertEmbedding st mid v m t i).countP (fun r => r.message_id == mid) =
      if st.any (fun r => r.message_id == mid) then
        st.countP (fun r => r.message_id == mid)
      else st.countP (fun r => r.message_id == mid) + 1 := by
  unfold upsertEmbedding
  by_cases hany : st.any (fun r => r.message_id == mid)
  · rw [if_pos hany, if_pos hany, List.countP_map]
    refine List.countP_congr fun r _ => ?_
    by_cases h : r.message_id = mid <;> simp [h]
  · rw [if_neg hany, if_neg hany, List.countP_append]
    simp

theorem any_upsertEmbedding (st : List EmbRow) (mid : Nat) (v : List ℝ) (m : String)
    (t i : Nat) :
    (upsertEmbedding st mid v m t i).any (fun r => r.message_id == mid) = true := by
  unfold upsertEmbedding
  by_cases hany : st.any (fun r => r.message_id == mid)
  · rw [if_pos hany]
    rw [List.any_eq_true] at hany ⊢
    obtain ⟨r, hr, hp⟩ := hany
    refine ⟨_, List.mem_map_of_mem _ hr, ?_⟩
    simp only [beq_iff_eq] at hp
    simp [hp]
  · rw [if_neg hany]
    rw [List.any_eq_true]
    exact ⟨_, List.mem_append_right _ (List.mem_singleton_self _), by simp⟩

theorem countP_upsertEmbedding_eq_one (st : List EmbRow) (mid : Nat) (v : List ℝ) (m : String)
    (t i : Nat) (huniq : st.countP (fun r => r.message_id == mid) ≤ 1) :
    (upsertEmbedding st mid v m t i).countP (fun r => r.message_id == mid) = 1 := by
  rw [countP_upsertEmbedding]
  by_cases hany : st.any (fun r => r.message_id == mid)
  · rw [if_pos hany]
    have hpos : 0 < st.countP (fun r => r.message_id == mid) := by
      rw [List.any_eq_true] at hany
      exact List.countP_pos_iff.mpr hany
    omega
  · rw [if_neg hany]
    have hz : st.countP (fun r => r.message_id == mid) = 0 := by
      refine List.countP_eq_zero.mpr fun r hr => ?_
      rw [Bool.not_eq_true]
      by_contra hcon
      rw [Bool.not_eq_false] at hcon
      exact hany (List.any_eq_true.mpr ⟨r, hr, hcon⟩)
    omega

theorem upsertEmbedding_values (st : List EmbRow) (mid : Nat) (v : List ℝ) (m : String)
    (t i : Nat) (hany : st.any (fun r => r.message_id == mid) = true) :
    ∀ r ∈ upsertEmbedding st mid v m t i, r.message_id = mid →
      r.embedding_vector = v ∧ r.model_name = m ∧ r.updated_at = t := by
  intro r hr hmid
  unfold upsertEmbedding at hr
  rw [if_pos hany] at hr
  obtain ⟨r0, hr0, hEq⟩ := List.mem_map.mp hr
  by_cases h0 : r0.message_id = mid
  · rw [if_pos h0] at hEq
    rw [← hEq]
    exact ⟨rfl, rfl, rfl⟩
  · rw [if_neg h0] at hEq
    exact absurd (hEq ▸ hmid) h0

theorem upsertEmbedding_idem (st : List EmbRow) (mid : Nat) (v : List ℝ) (m : String)
    (t i1 i2 : Nat) :
    upsertEmbedding (upsertEmbedding st mid v m t i1) mid v m t i2 =
      upsertEmbedding st mid v m t i1 := by
  have hany1 := any_upsertEmbedding st mid v m t i1
  conv_lhs => rw [upsertEmbedding]
  rw [if_pos hany1]
  refine Eq.trans (List.map_congr_left fun r hr => ?_) (List.map_id _)
  show (if r.message_id = mid then
      ({ r with embedding_vector := v, model_name := m, updated_at := t } : EmbRow)
    else r) = r
  unfold upsertEmbedding at hr
  by_cases hany : st.any (fun r => r.message_id == mid)
  · rw [if_pos hany] at hr
    obtain ⟨r0, _, hEq⟩ := List.mem_map.mp hr
    by_cases h0 : r0.message_id = mid
    · rw [if_pos h0] at hEq
      subst hEq
      simp [h0]
    · rw [if_neg h0] at hEq
      subst hEq
      rw [if_neg h0]
  · rw [if_neg hany] at hr
    rcases List.mem_append.mp hr with hr0 | hr0
    · have hne0 : ¬ r.message_id = mid := by
        rw [Bool.not_eq_true, List.any_eq_false] at hany
        have := hany r hr0
        simpa using this
      rw [if_neg hne0]
    · rw [List.mem_singleton.mp hr0]
      simp

/-- C5: two successive upserts for the same `messageId` leave exactly one
embedding row for it, whose stored vector and model name reflect the second
call; repeated upserts with the same arguments leave the store unchanged
(last write wins).  `huniq` is the `UNIQUE (message_id)` constraint of the
schema. -/
theorem upsert_last_write_wins (st : List EmbRow) (mid : Nat) (v1 v2 : List ℝ)
    (m1 m2 : String) (t1 t2 i1 i2 : Nat)
    (huniq : st.countP (fun r => r.message_id == mid) ≤ 1) (_hne : v1 ≠ v2) :
    ((upsertEmbedding (upsertEmbedding st mid v1 m1 t1 i1) mid v2 m2 t2 i2).countP
        (fun r => r.message_id == mid) = 1 ∧
      ∀ r ∈ upsertEmbedding (upsertEmbedding st mid v1 m1 t1 i1) mid v2 m2 t2 i2,
        r.message_id = mid → r.embedding_vector = v2 ∧ r.model_name = m2) ∧
    ∀ (v : List ℝ) (m : String) (t i3 i4 : Nat),
      upsertEmbedding (upsertEmbedding st mid v m t i3) mid v m t i4 =
        upsertEmbedding st mid v m t i3 := by
  refine ⟨⟨?_, ?_⟩, fun v m t i3 i4 => upsertEmbedding_idem st mid v m t i3 i4⟩
  · refine countP_upsertEmbedding_eq_one _ mid v2 m2 t2 i2 ?_
    exact le_of_eq (countP_upsertEmbedding_eq_one st mid v1 m1 t1 i1 huniq)
  · intro r hr hmid
    exact ⟨(upsertEmbedding_values _ mid v2 m2 t2 i2
        (any_upsertEmbedding st mid v1 m1 t1 i1) r hr hmid).1,
      (upsertEmbedding_values _ mid v2 m2 t2 i2
        (any_upsertEmbedding st mid v1 m1 t1 i1) r hr hmid).2.1⟩

/-- Closed witness for C5: an empty store, then two upserts for message 5. -/
theorem upsert_last_write_wins_witness :
    (((upsertEmbedding (upsertEmbedding [] 5 [(1 : ℝ)] "m1" 10 1) 5 [(2 : ℝ)] "m2" 11 2).countP
        (fun r => r.message_id == 5) = 1 ∧
      ∀ r ∈ upsertEmbedding (upsertEmbedding [] 5 [(1 : ℝ)] "m1" 10 1) 5 [(2 : ℝ)] "m2" 11 2,
        r.message_id = 5 → r.embedding_vector = [(2 : ℝ)] ∧ r.model_name = "m2") ∧
    ∀ (v : List ℝ) (m : String) (t i3 i4 : Nat),
      upsertEmbedding (upsertEmbedding [] 5 v m t i3) 5 v m t i4 =
        upsertEmbedding [] 5 v m t i3) :=
  upsert_last_write_wins [] 5 [(1 : ℝ)] [(2 : ℝ)] "m1" "m2" 10 11 1 2 (by simp)
    (by simp)

/-- C10: when the upsert takes its conflict (overwrite) branch, the store
keeps the same length, every row keeps its `id`, `message_id` and
`created_at`, and every row whose `message_id` differs from the written one
is completely unchanged. -/
theorem upsert_frame (st : List EmbRow) (mid : Nat) (v : List ℝ) (m : String) (t i : Nat)
    (hex : st.any (fun r => r.message_id == mid) = true) :
    (upsertEmbedding st mid v m t i).length = st.length ∧
    ∀ (j : Nat) (hj : j < st.length) (hj2 : j < (upsertEmbedding st mid v m t i).length),
      (((upsertEmbedding st mid v m t i).get ⟨j, hj2⟩).id = (st.get ⟨j, hj⟩).id ∧
       ((upsertEmbedding st mid v m t i).get ⟨j, hj2⟩).message_id = (st.get ⟨j, hj⟩).message_id ∧
       ((upsertEmbedding st mid v m t i).get ⟨j, hj2⟩).created_at = (st.get ⟨j, hj⟩).created_at) ∧
      ((st.get ⟨j, hj⟩).message_id ≠ mid →
        (upsertEmbedding st mid v m t i).get ⟨j, hj2⟩ = st.get ⟨j, hj⟩) := by
  unfold upsertEmbedding
  rw [if_pos hex]
  refine ⟨List.length_map _ _, fun j hj hj2 => ?_⟩
  simp only [List.get_eq_getElem, List.getElem_map]
  by_cases h : st[j].message_id = mid
  · simp [h]
  · simp [h]

/-- Closed witness for C10: a one-row store, overwritten in place. -/
theorem upsert_frame_witness :
    (upsertEmbedding [⟨7, 5, [(1 : ℝ)], "old", 3, 3⟩] 5 [(2 : ℝ)] "new" 9 42).length =
      ([⟨7, 5, [(1 : ℝ)], "old", 3, 3⟩] : List EmbRow).length ∧
    ∀ (j : Nat) (hj : j < ([⟨7, 5, [(1 : ℝ)], "old", 3, 3⟩] : List EmbRow).length)
      (hj2 : j < (upsertEmbedding [⟨7, 5, [(1 : ℝ)], "old", 3, 3⟩] 5 [(2 : ℝ)] "new" 9 42).length),
      (((upsertEmbedding [⟨7, 5, [(1 : ℝ)], "old", 3, 3⟩] 5 [(2 : ℝ)] "new" 9 42).get
          ⟨j, hj2⟩).id = (([⟨7, 5, [(1 : ℝ)], "old", 3, 3⟩] : List EmbRow).get ⟨j, hj⟩).id ∧
       ((upsertEmbedding [⟨7, 5, [(1 : ℝ)], "old", 3, 3⟩] 5 [(2 : ℝ)] "new" 9 42).get
          ⟨j, hj2⟩).message_id =
         (([⟨7, 5, [(1 : ℝ)], "old", 3, 3⟩] : List EmbRow).get ⟨j, hj⟩).message_id ∧
       ((upsertEmbedding [⟨7, 5, [(1 : ℝ)], "old", 3, 3⟩] 5 [(2 : ℝ)] "new" 9 42).get
          ⟨j, hj2⟩).created_at =
         (([⟨7, 5, [(1 : ℝ)], "old", 3, 3⟩] : List EmbRow).get ⟨j, hj⟩).created_at) ∧
      ((([⟨7, 5, [(1 : ℝ)], "old", 3, 3⟩] : List EmbRow).get ⟨j, hj⟩).message_id ≠ 5 →
        (upsertEmbedding [⟨7, 5, [(1 : ℝ)], "old", 3, 3⟩] 5 [(2 : ℝ)] "new" 9 42).get
          ⟨j, hj2⟩ = ([⟨7, 5, [(1 : ℝ)], "old", 3, 3⟩] : List EmbRow).get ⟨j, hj⟩) :=
  upsert_frame [⟨7, 5, [(1 : ℝ)], "old", 3, 3⟩] 5 [(2 : ℝ)] "new" 9 42 (by simp)

/-!
### Search hits and grouping by conversation

`searchMessages` (lines 564-585) and `performKeywordSearch` (lines 615-632)
group their already-ordered hit list with the same pattern:

```js
const conversations = {};
hits.forEach(msg => {
  if (!conversations[msg.conversationId]) {
    conversations[msg.conversationId] = {conversationId, conversationTitle, messages: []};
  }
  conversations[msg.conversationId].messages.push({...});
});
res.json({ conversations: Object.values(conversations), ... });
```

`conversations` is a plain object whose keys are the numeric
`conversationId` values (`SERIAL` integers from the `conversations` table,
returned by node-postgres as JavaScript numbers).  Property keys that are
canonical array indices (non-negative integers below 2^32 - 1) are
enumerated by `Object.values` in ascending numeric order — ECMAScript
`OrdinaryOwnPropertyKeys` — NOT in insertion order; insertion order applies
only to non-index string keys.  The model therefore emits the groups in
ascending key order (`jsIntKeyOrder`), while `firstHitKeys` records the
insertion order (first occurrence of each conversation id) for comparison.
-/

/-- JS strings that undergo `.trim()` are modelled as lists of characters
(`String.trim` of Lean does not reduce in the kernel). -/
def jsTrim (s : List Char) : List Char :=
  ((s.dropWhile Char.isWhitespace).reverse.dropWhile Char.isWhitespace).reverse

/-- One scored hit, as built at lines 535-543 (semantic) or read at lines
603-613 (keyword). -/
structure Hit where
  id : Nat
  conversationId : Nat
  role : String
  content : List Char
  createdAt : Nat
  conversationTitle : String
  similarity : ℝ

/-- The per-message object pushed into a group's `messages` (lines 574-581):
same fields as the hit except `conversationTitle` is dropped. -/
structure GroupedMsg where
  id : Nat
  conversationId : Nat
  role : String
  content : List Char
  createdAt : Nat
  similarity : ℝ

def Hit.toGrouped (h : Hit) : GroupedMsg :=
  { id := h.id, conversationId := h.conversationId, role := h.role, content := h.content,
    createdAt := h.createdAt, similarity := h.similarity }

/-- One entry of the `conversations` object (lines 568-572). -/
structure ConversationGroup where
  conversationId : Nat
  conversationTitle : String
  messages : List GroupedMsg

/-- Key insertion into a JS object: adding a property that already exists
keeps the key set; a new key is recorded (here at the end, tracking
insertion order). -/
def insertKey (ks : List Nat) (k : Nat) : List Nat :=
  if k ∈ ks then ks else ks ++ [k]

/-- The object's keys in insertion order: the order in which each
conversation id's first hit is encountered while iterating the hit list. -/
def firstHitKeys (hits : List Hit) : List Nat :=
  hits.foldl (fun ks h => insertKey ks h.conversationId) []

/-- ECMAScript enumeration order of integer-index keys: ascending numeric
order (`OrdinaryOwnPropertyKeys` step 1). -/
def jsIntKeyOrder (ks : List Nat) : List Nat :=
  ks.mergeSort (fun a b => decide (a ≤ b))

/-- The group object for key `k`: its title comes from the first hit with
that conversation id (the hit that created the group), and its `messages`
accumulate the hits with that id in iteration order. -/
def mkGroup (hits : List Hit) (k : Nat) : ConversationGroup where
  conversationId := k
  conversationTitle :=
    match hits.find? (fun h => h.conversationId == k) with
    | some h => h.conversationTitle
    | none => ""
  messages := (hits.filter (fun h => h.conversationId == k)).map Hit.toGrouped

/-- `Object.values(conversations)` for the grouping loop above. -/
def groupByConversation (hits : List Hit) : List ConversationGroup :=
  (jsIntKeyOrder (firstHitKeys hits)).map (mkGroup hits)

theorem mem_insertKey {x k : Nat} {ks : List Nat} :
    x ∈ insertKey ks k ↔ x ∈ ks ∨ x = k := by
  unfold insertKey
  by_cases h : k ∈ ks
  · rw [if_pos h]
    constructor
    · exact Or.inl
    · rintro (hx | rfl)
      · exact hx
      · exact h
  · rw [if_neg h]
    simp

theorem nodup_insertKey {ks : List Nat} (k : Nat) (hnd : ks.Nodup) :
    (insertKey ks k).Nodup := by
  unfold insertKey
  by_cases h : k ∈ ks
  · rwa [if_pos h]
  · rw [if_neg h]
    simp [List.nodup_append, hnd, h]

theorem nodup_foldl_insertKey (hits : List Hit) :
    ∀ acc : List Nat, acc.Nodup →
      (hits.foldl (fun ks h => insertKey ks h.conversationId) acc).Nodup := by
  induction hits with
  | nil => exact fun acc h => h
  | cons hd tl ih =>
    intro acc hacc
    exact ih _ (nodup_insertKey _ hacc)

theorem nodup_firstHitKeys (hits : List Hit) : (firstHitKeys hits).Nodup :=
  nodup_foldl_insertKey hits [] List.nodup_nil

theorem mem_foldl_insertKey_of_mem (hits : List Hit) :
    ∀ acc : List Nat, ∀ x ∈ acc, x ∈ hits.foldl (fun ks h => insertKey ks h.conversationId) acc := by
  induction hits with
  | nil => exact fun acc x hx => hx
  | cons hd tl ih =>
    intro acc x hx
    exact ih _ x (mem_insertKey.mpr (Or.inl hx))

theorem cid_mem_firstHitKeys (hits : List Hit) :
    ∀ h ∈ hits, h.conversationId ∈ firstHitKeys hits := by
  unfold firstHitKeys
  generalize [] = acc
  induction hits generalizing acc with
  | nil => intro h hh; exact absurd hh (List.not_mem_nil h)
  | cons hd tl ih =>
    intro h hh
    rcases List.mem_cons.mp hh with rfl | hmem
    · exact mem_foldl_insertKey_of_mem tl _ _ (mem_insertKey.mpr (Or.inr rfl))
    · exact ih _ h hmem

theorem jsIntKeyOrder_perm (ks : List Nat) : (jsIntKeyOrder ks).Perm ks :=
  List.mergeSort_perm ks _

theorem jsIntKeyOrder_sorted (ks : List Nat) :
    (jsIntKeyOrder ks).Pairwise (· ≤ ·) := by
  have h := @List.sorted_mergeSort Nat (fun a b : Nat => decide (a ≤ b))
    (fun a b c hab hbc => by
      simp only [decide_eq_true_eq] at *
      omega)
    (fun a b => by
      rcases Nat.le_total a b with h | h <;> simp [h])
    ks
  exact h.imp fun hab => of_decide_eq_true hab

theorem groupByConversation_keys (hits : List Hit) :
    (groupByConversation hits).map (fun g => g.conversationId) =
      jsIntKeyOrder (firstHitKeys hits) := by
  unfold groupByConversation
  rw [List.map_map]
  exact Eq.trans (List.map_congr_left fun k _ => rfl) (List.map_id _)

theorem groupByConversation_keys_lt (hits : List Hit) :
    ((groupByConversation hits).map (fun g => g.conversationId)).Pairwise (· < ·) := by
  rw [groupByConversation_keys]
  have hs := jsIntKeyOrder_sorted (firstHitKeys hits)
  have hnd : (jsIntKeyOrder (firstHitKeys hits)).Nodup :=
    (jsIntKeyOrder_perm (firstHitKeys hits)).nodup_iff.mpr (nodup_firstHitKeys hits)
  exact (hs.and hnd).imp fun hab => lt_of_le_of_ne hab.1 hab.2

/-- C1 (amended): the conversation groups of a response appear in ascending
`conversationId` order — the ECMAScript enumeration order of the integer
keys of the `conversations` object — carrying exactly the key set collected
in first-hit insertion order; the output order is NOT the insertion order
of first hits (they coincide only when that order is already ascending). -/
theorem groupByConversation_ascending (hits : List Hit) :
    ((groupByConversation hits).map (fun g => g.conversationId)).Pairwise (· < ·) ∧
    ((groupByConversation hits).map (fun g => g.conversationId)).Perm (firstHitKeys hits) := by
  refine ⟨groupByConversation_keys_lt hits, ?_⟩
  rw [groupByConversation_keys]
  exact jsIntKeyOrder_perm (firstHitKeys hits)

unseal List.merge List.mergeSort in
/-- C1 counterexample: a ranked hit list whose first hit belongs to
conversation 2 and whose second hit belongs to conversation 1.  The first
hits occur in the order [2, 1], but the response lists the groups as
[1, 2]: group order is ascending conversation id, not first-hit order. -/
theorem groupByConversation_not_insertion_order :
    firstHitKeys
        [⟨10, 2, "user", ['a'], 5, "T2", (1 : ℝ)⟩, ⟨11, 1, "ai", ['b'], 4, "T1", (1 : ℝ)⟩] =
      [2, 1] ∧
    (groupByConversation
        [⟨10, 2, "user", ['a'], 5, "T2", (1 : ℝ)⟩, ⟨11, 1, "ai", ['b'], 4, "T1", (1 : ℝ)⟩]).map
        (fun g => g.conversationId) =
      [1, 2] ∧
    ([1, 2] : List Nat) ≠ [2, 1] :=
  ⟨rfl, rfl, by decide⟩

theorem countP_split (l : List Hit) (p : Hit → Bool) :
    l.countP p + l.countP (fun h => !(p h)) = l.length := by
  induction l with
  | nil => simp
  | cons a as ih =>
    by_cases h : p a <;> simp [List.countP_cons, h, ← ih] <;> omega

theorem sum_countP_of_cover :
    ∀ (ks : List Nat) (l : List Hit), ks.Nodup →
      (∀ h ∈ l, h.conversationId ∈ ks) →
      (ks.map (fun k => l.countP (fun h => h.conversationId == k))).sum = l.length := by
  intro ks
  induction ks with
  | nil =>
    intro l _ hcov
    have hl : l = [] := by
      cases l with
      | nil => rfl
      | cons a as => exact absurd (hcov a (by simp)) (by simp)
    rw [hl]
    rfl
  | cons k ks ih =>
    intro l hnd hcov
    have hknotin : k ∉ ks := (List.nodup_cons.mp hnd).1
    have hstep : ∀ k2 ∈ ks,
        l.countP (fun h => h.conversationId == k2) =
          (l.filter (fun h => !(h.conversationId == k))).countP
            (fun h => h.conversationId == k2) := by
      intro k2 hk2
      have hk2ne : k2 ≠ k := fun hEq => hknotin (hEq ▸ hk2)
      rw [List.countP_eq_length_filter, List.countP_eq_length_filter, List.filter_filter]
      congr 1
      refine List.filter_congr fun h _ => ?_
      by_cases hc : h.conversationId = k2
      · simp [hc, hk2ne]
      · simp [hc]
    rw [List.map_cons, List.sum_cons, List.map_congr_left hstep,
      ih (l.filter (fun h => !(h.conversationId == k))) (List.nodup_cons.mp hnd).2
        (fun h hh => by
          have hmem := (List.mem_filter.mp hh).1
          have hne : ¬ h.conversationId = k := by
            have := (List.mem_filter.mp hh).2
            simpa using this
          rcases List.mem_cons.mp (hcov h hmem) with hEq | hks
          · exact absurd hEq hne
          · exact hks),
      ← List.countP_eq_length_filter]
    exact countP_split l (fun h => h.conversationId == k)

theorem messages_mkGroup_length (hits : List Hit) (k : Nat) :
    (mkGroup hits k).messages.length = hits.countP (fun h => h.conversationId == k) := by
  unfold mkGroup
  rw [List.length_map, ← List.countP_eq_length_filter]

theorem mem_mkGroup_messages_iff (hits : List Hit) (k : Nat) (h : Hit) (hh : h ∈ hits) :
    h.toGrouped ∈ (mkGroup hits k).messages ↔ k = h.conversationId := by
  unfold mkGroup
  constructor
  · intro hmem
    obtain ⟨h2, hmem2, hEq⟩ := List.mem_map.mp hmem
    have hk : h2.conversationId = k := by
      have := (List.mem_filter.mp hmem2).2
      simpa using this
    have hcid : h2.conversationId = h.conversationId := congrArg GroupedMsg.conversationId hEq
    rw [← hk, hcid]
  · intro hEq
    refine List.mem_map.mpr ⟨h, List.mem_filter.mpr ⟨hh, by simp [hEq]⟩, rfl⟩

theorem grouping_partition_core (hits : List Hit) :
    ((groupByConversation hits).map (fun g => g.messages.length)).sum = hits.length ∧
    ∀ h ∈ hits,
      (groupByConversation hits).countP (fun g => g.conversationId == h.conversationId) = 1 ∧
      ∀ g ∈ groupByConversation hits,
        (h.toGrouped ∈ g.messages ↔ g.conversationId = h.conversationId) := by
  constructor
  · unfold groupByConversation
    rw [List.map_map]
    have hEq : ((fun g => g.messages.length) ∘ mkGroup hits) =
        fun k => hits.countP (fun h => h.conversationId == k) := by
      funext k
      exact messages_mkGroup_length hits k
    rw [hEq]
    refine sum_countP_of_cover _ hits
      ((jsIntKeyOrder_perm (firstHitKeys hits)).nodup_iff.mpr (nodup_firstHitKeys hits))
      (fun h hh => ?_)
    exact ((jsIntKeyOrder_perm (firstHitKeys hits)).mem_iff).mpr (cid_mem_firstHitKeys hits h hh)
  · intro h hh
    constructor
    · unfold groupByConversation
      rw [List.countP_map]
      have hEq : ((fun g => g.conversationId == h.conversationId) ∘ mkGroup hits) =
          fun k => k == h.conversationId := by
        funext k
        rfl
      rw [hEq]
      have hmem : h.conversationId ∈ jsIntKeyOrder (firstHitKeys hits) :=
        ((jsIntKeyOrder_perm (firstHitKeys hits)).mem_iff).mpr
          (cid_mem_firstHitKeys hits h hh)
      have hnd : (jsIntKeyOrder (firstHitKeys hits)).Nodup :=
        (jsIntKeyOrder_perm (firstHitKeys hits)).nodup_iff.mpr (nodup_firstHitKeys hits)
      exact List.count_eq_one_of_mem hnd hmem
    · intro g hg
      obtain ⟨k, _, hgk⟩ := List.mem_map.mp hg
      rw [← hgk]
      exact mem_mkGroup_messages_iff hits k h hh

/-!
### The search orchestrator (`searchMessages`, lines 487-595)

The orchestrator's interactions with the outside world are made explicit:
`SearchEnv.provider` is the outcome of the Ollama embeddings fetch for a
prompt (`none` models any failure, which `generateEmbedding` catches and
turns into `null`); `SearchEnv.rows` is the result set of the
messages-with-embeddings query (already ordered by `created_at DESC`);
`SearchEnv.keywordRows` is the result set of the keyword `ILIKE` query
(ordered `created_at DESC`, `LIMIT 50`, constant similarity `0.5`).  The
returned effect list records, in order, which external calls the handler
performed. -/

/-- One row of the messages-with-embeddings join (lines 509-520);
`embedding_vector` is `none` when the stored text does not parse
(`JSON.parse` throws and the row is mapped to `null`, then filtered out). -/
structure MsgRow where
  id : Nat
  conversation_id : Nat
  role : String
  content : List Char
  created_at : Nat
  conversation_title : String
  embedding_vector : Option (List ℝ)

inductive Effect
  | providerCall (prompt : List Char)
  | storeRead (userId : Nat)
  | keywordQuery (userId : Nat) (query : List Char)
deriving DecidableEq

inductive SearchType
  | semantic
  | keyword
deriving DecidableEq

structure SearchOk where
  conversations : List ConversationGroup
  totalMessages : Nat
  searchType : SearchType
  embeddingModel : Option String

inductive SearchResponse
  | validationError
  | ok (r : SearchOk)

structure SearchEnv where
  provider : List Char → Option (List ℝ)
  rows : List MsgRow
  keywordRows : List Hit

/-- `generateEmbedding(text)` (lines 24-60): returns `null` without any
provider call when the trimmed text is shorter than 3 characters; otherwise
performs exactly one provider call whose outcome (`none` on any failure,
caught internally) is the result.  The second component is the effect
trace of the call. -/
def generateEmbedding (provider : List Char → Option (List ℝ)) (text : List Char) :
    Option (List ℝ) × List Effect :=
  if (jsTrim text).length < 3 then (none, [])
  else (provider text, [Effect.providerCall text])

/-- The constant `SIMILARITY_THRESHOLD` (line 551). -/
noncomputable def SIMILARITY_THRESHOLD : ℝ := 0.3

/-- Lines 530-548: score every fetched row against the query embedding;
a row whose stored vector fails to parse becomes `null` and is filtered
out. -/
noncomputable def scoreRows (queryEmbedding : List ℝ) (rows : List MsgRow) : List Hit :=
  rows.filterMap (fun row => row.embedding_vector.map (fun v =>
    { id := row.id, conversationId := row.conversation_id, role := row.role,
      content := row.content, createdAt := row.created_at,
      conversationTitle := row.conversation_title,
      similarity := cosineSimilarity (some queryEmbedding) (some v) }))

/-- Lines 551-555: keep scores `>= 0.3`, sort by descending similarity
(`Array.prototype.sort` is stable; the comparator `b.similarity -
a.similarity` keeps `a` before `b` iff `a.similarity >= b.similarity`,
which is `List.mergeSort` with that relation), and take the first 50. -/
noncomputable def semanticRelevant (queryEmbedding : List ℝ) (rows : List MsgRow) : List Hit :=
  (((scoreRows queryEmbedding rows).filter
      (fun msg => decide (SIMILARITY_THRESHOLD ≤ msg.similarity))).mergeSort
    (fun a b => decide (b.similarity ≤ a.similarity))).take 50

/-- `performKeywordSearch(userId, query, res)` (lines 598-645): one SQL
query (the effect), then group and respond with `searchType: 'keyword'`. -/
def performKeywordSearch (userId : Nat) (query : List Char) (env : SearchEnv) :
    SearchResponse × List Effect :=
  (SearchResponse.ok
    { conversations := groupByConversation env.keywordRows,
      totalMessages := env.keywordRows.length,
      searchType := SearchType.keyword,
      embeddingModel := none },
   [Effect.keywordQuery userId query])

/-- `searchMessages` (lines 487-595).  Control flow of the source:
query shorter than 3 trimmed characters → 400 before anything else;
no query embedding → keyword fallback; no rows with embeddings → keyword
fallback; no relevant message after threshold/sort/cap → keyword fallback;
otherwise the grouped semantic response. -/
noncomputable def searchMessages (userId : Nat) (query : List Char) (env : SearchEnv) :
    SearchResponse × List Effect :=
  if (jsTrim query).length < 3 then (SearchResponse.validationError, [])
  else
    match generateEmbedding env.provider query with
    | (none, eff1) =>
      let kw := performKeywordSearch userId query env
      (kw.1, eff1 ++ kw.2)
    | (some queryEmbedding, eff1) =>
      let eff2 := eff1 ++ [Effect.storeRead userId]
      if env.rows.isEmpty then
        let kw := performKeywordSearch userId query env
        (kw.1, eff2 ++ kw.2)
      else
        let relevant := semanticRelevant queryEmbedding env.rows
        if relevant.isEmpty then
          let kw := performKeywordSearch userId query env
          (kw.1, eff2 ++ kw.2)
        else
          (SearchResponse.ok
            { conversations := groupByConversation relevant,
              totalMessages := relevant.length,
              searchType := SearchType.semantic,
              embeddingModel := some EMBEDDING_MODEL },
           eff2)

/-- C8: a query that trims to fewer than 3 characters terminates with the
validation error and an empty effect trace: no provider call, no store
read, no keyword search. -/
theorem search_validation_short_circuit (userId : Nat) (query : List Char) (env : SearchEnv)
    (hshort : (jsTrim query).length < 3) :
    searchMessages userId query env = (SearchResponse.validationError, []) := by
  unfold searchMessages
  rw [if_pos hshort]

/-- Closed witness for C8: the one-character query `"a"`. -/
theorem search_validation_short_circuit_witness :
    searchMessages 1 ['a'] ⟨fun _ => none, [], []⟩ = (SearchResponse.validationError, []) :=
  search_validation_short_circuit 1 ['a'] ⟨fun _ => none, [], []⟩ (by decide)

theorem semanticRelevant_sorted (qe : List ℝ) (rows : List MsgRow) :
    (semanticRelevant qe rows).Pairwise (fun a b => b.similarity ≤ a.similarity) := by
  unfold semanticRelevant
  have hs := @List.sorted_mergeSort Hit (fun a b => decide (b.similarity ≤ a.similarity))
    (fun a b c hab hbc => by
      simp only [decide_eq_true_eq] at *
      exact le_trans hbc hab)
    (fun a b => by
      rcases le_total b.similarity a.similarity with h | h <;> simp [h])
    ((scoreRows qe rows).filter (fun msg => decide (SIMILARITY_THRESHOLD ≤ msg.similarity)))
  exact (List.Pairwise.sublist (List.take_sublist 50 _) hs).imp fun hab => of_decide_eq_true hab

/-- C3: once a query embedding exists and the user has at least one row with
a parseable stored vector, every hit of the relevant set respects the 0.3
threshold, the set is sorted by descending similarity and capped at 50; an
empty relevant set makes the orchestrator answer with the keyword fallback,
a non-empty one with the grouped semantic response. -/
theorem semantic_rank_and_fallback (userId : Nat) (query : List Char) (env : SearchEnv)
    (qe : List ℝ) (hq : ¬ (jsTrim query).length < 3) (hp : env.provider query = some qe)
    (hrow : ∃ r ∈ env.rows, r.embedding_vector ≠ none) :
    (∀ msg ∈ semanticRelevant qe env.rows, SIMILARITY_THRESHOLD ≤ msg.similarity) ∧
    (semanticRelevant qe env.rows).Pairwise (fun a b => b.similarity ≤ a.similarity) ∧
    (semanticRelevant qe env.rows).length ≤ 50 ∧
    (semanticRelevant qe env.rows = [] →
      searchMessages userId query env =
        ((performKeywordSearch userId query env).1,
         Effect.providerCall query :: Effect.storeRead userId ::
           (performKeywordSearch userId query env).2)) ∧
    (semanticRelevant qe env.rows ≠ [] →
      searchMessages userId query env =
        (SearchResponse.ok
          { conversations := groupByConversation (semanticRelevant qe env.rows),
            totalMessages := (semanticRelevant qe env.rows).length,
            searchType := SearchType.semantic,
            embeddingModel := some EMBEDDING_MODEL },
         [Effect.providerCall query, Effect.storeRead userId])) := by
  have hne : env.rows ≠ [] := by
    obtain ⟨r, hr, _⟩ := hrow
    intro hnil
    rw [hnil] at hr
    exact absurd hr (List.not_mem_nil r)
  have hie : env.rows.isEmpty = false := by
    cases hrows : env.rows with
    | nil => exact absurd hrows hne
    | cons a as => rfl
  refine ⟨?_, semanticRelevant_sorted qe env.rows, ?_, ?_, ?_⟩
  · intro msg hm
    have h1 := List.mem_of_mem_take hm
    have h2 := List.mem_mergeSort.mp h1
    exact of_decide_eq_true (List.mem_filter.mp h2).2
  · exact List.length_take_le 50 _
  · intro hrel
    unfold searchMessages generateEmbedding
    rw [if_neg hq, if_neg hq, hp]
    simp only [hie, Bool.false_eq_true, if_false, hrel, List.isEmpty_nil, if_true]
    rfl
  · intro hrel
    have hreli : (semanticRelevant qe env.rows).isEmpty = false := by
      cases hcase : semanticRelevant qe env.rows with
      | nil => exact absurd hcase hrel
      | cons a as => rfl
    unfold searchMessages generateEmbedding
    rw [if_neg hq, if_neg hq, hp]
    simp only [hie, Bool.false_eq_true, if_false, hreli]
    rfl

/-- A one-row environment with a parseable stored vector, used by the C3
witness. -/
def sampleEnv : SearchEnv :=
  ⟨fun _ => some [(1 : ℝ)], [⟨2, 3, "user", ['h', 'i'], 0, "T", some [(1 : ℝ)]⟩], []⟩

/-- Closed witness for C3 at the query "cat" against `sampleEnv`. -/
theorem semantic_rank_and_fallback_witness :
    (∀ msg ∈ semanticRelevant [(1 : ℝ)] sampleEnv.rows,
        SIMILARITY_THRESHOLD ≤ msg.similarity) ∧
    (semanticRelevant [(1 : ℝ)] sampleEnv.rows).Pairwise
      (fun a b => b.similarity ≤ a.similarity) ∧
    (semanticRelevant [(1 : ℝ)] sampleEnv.rows).length ≤ 50 ∧
    (semanticRelevant [(1 : ℝ)] sampleEnv.rows = [] →
      searchMessages 1 ['c', 'a', 't'] sampleEnv =
        ((performKeywordSearch 1 ['c', 'a', 't'] sampleEnv).1,
         Effect.providerCall ['c', 'a', 't'] :: Effect.storeRead 1 ::
           (performKeywordSearch 1 ['c', 'a', 't'] sampleEnv).2)) ∧
    (semanticRelevant [(1 : ℝ)] sampleEnv.rows ≠ [] →
      searchMessages 1 ['c', 'a', 't'] sampleEnv =
        (SearchResponse.ok
          { conversations := groupByConversation (semanticRelevant [(1 : ℝ)] sampleEnv.rows),
            totalMessages := (semanticRelevant [(1 : ℝ)] sampleEnv.rows).length,
            searchType := SearchType.semantic,
            embeddingModel := some EMBEDDING_MODEL },
         [Effect.providerCall ['c', 'a', 't'], Effect.storeRead 1])) :=
  semantic_rank_and_fallback 1 ['c', 'a', 't'] sampleEnv [(1 : ℝ)] (by decide) rfl
    ⟨⟨2, 3, "user", ['h', 'i'], 0, "T", some [(1 : ℝ)]⟩, by simp [sampleEnv], by simp⟩

/-!
### The backfill job (`generateMissingEmbeddings`, lines 675-736)

`candidates` models the result set of the SQL query of lines 683-691
(messages of the user without an embedding and with trimmed content of
length >= 3, ordered `created_at DESC`); `LIMIT $2` is `take limit`.
-/

structure BackfillEnv where
  provider : List Char → Option (List ℝ)
  dbOk : Nat → Bool
  now : Nat
  fresh : Nat → Nat

/-- `generateAndStoreEmbedding(messageId, content)` (lines 87-103).  Its
whole body is wrapped in `try/catch` — and both callees catch their own
errors internally, `generateEmbedding` returning `null` and
`storeEmbedding` returning `false` — so the returned promise ALWAYS
resolves; the only observable outcome is the possibly-updated embeddings
store. -/
def generateAndStoreEmbedding (env : BackfillEnv) (st : List EmbRow) (messageId : Nat)
    (content : List Char) : List EmbRow :=
  if (jsTrim content).length < 3 then st
  else
    match (generateEmbedding env.provider content).1 with
    | some embedding =>
      (storeEmbedding (env.dbOk messageId) st messageId embedding env.now
        (env.fresh messageId)).1
    | none => st

/-- One row of the backfill candidate query (`m.id, m.content`). -/
structure BackfillMsg where
  id : Nat
  content : List Char

structure BackfillState where
  store : List EmbRow
  successCount : Nat
  failCount : Nat
  errors : List (Nat × String)

/-- The sequential `for` loop of lines 710-719.  Because the awaited
`generateAndStoreEmbedding` never rejects (see its definition), the `catch`
branch of the loop — the only place `failCount` is incremented and an
`{messageId, error}` entry is pushed onto `errors` — is unreachable, so the
iteration increments `successCount` unconditionally and never touches
`failCount` or `errors`. -/
def backfillLoop (env : BackfillEnv) (rows : List BackfillMsg) (init : BackfillState) :
    BackfillState :=
  rows.foldl (fun acc row =>
    { acc with
      store := generateAndStoreEmbedding env acc.store row.id row.content,
      successCount := acc.successCount + 1 }) init

structure BackfillResult where
  totalProcessed : Nat
  successCount : Nat
  failCount : Nat
  errors : List (Nat × String)
  store : List EmbRow

/-- `generateMissingEmbeddings` (lines 675-736): fetch up to `limit`
candidates; empty result short-circuits with the zero-activity response;
otherwise run the loop and respond with `errors.slice(0, 5)`. -/
def generateMissingEmbeddings (env : BackfillEnv) (candidates : List BackfillMsg)
    (limit : Nat) (st0 : List EmbRow) : BackfillResult :=
  let rows := candidates.take limit
  if rows.isEmpty then
    { totalProcessed := 0, successCount := 0, failCount := 0, errors := [], store := st0 }
  else
    let final := backfillLoop env rows ⟨st0, 0, 0, []⟩
    { totalProcessed := rows.length, successCount := final.successCount,
      failCount := final.failCount, errors := final.errors.take 5, store := final.store }

theorem backfillLoop_counts (env : BackfillEnv) (rows : List BackfillMsg) :
    ∀ init : BackfillState,
      (backfillLoop env rows init).successCount = init.successCount + rows.length ∧
      (backfillLoop env rows init).failCount = init.failCount ∧
      (backfillLoop env rows init).errors = init.errors := by
  induction rows with
  | nil => exact fun init => ⟨rfl, rfl, rfl⟩
  | cons row rest ih =>
    rintro ⟨s, sc, fc, er⟩
    have h := ih ⟨generateAndStoreEmbedding env s row.id row.content, sc + 1, fc, er⟩
    simp only [backfillLoop, List.foldl_cons] at h ⊢
    refine ⟨?_, h.2.1, h.2.2⟩
    rw [h.1]
    simp only [List.length_cons]
    omega

/-- C4: a backfill run processes at most `limit` messages, reports at most
5 error entries, and its success and failure counts sum to
`totalProcessed`. -/
theorem backfill_bounds (env : BackfillEnv) (candidates : List BackfillMsg) (limit : Nat)
    (st0 : List EmbRow) :
    (generateMissingEmbeddings env candidates limit st0).totalProcessed ≤ limit ∧
    (generateMissingEmbeddings env candidates limit st0).errors.length ≤ 5 ∧
    (generateMissingEmbeddings env candidates limit st0).successCount +
        (generateMissingEmbeddings env candidates limit st0).failCount =
      (generateMissingEmbeddings env candidates limit st0).totalProcessed := by
  unfold generateMissingEmbeddings
  by_cases hempty : (candidates.take limit).isEmpty
  · simp [hempty]
  · simp only [hempty, Bool.false_eq_true, if_false]
    have hc := backfillLoop_counts env (candidates.take limit) ⟨st0, 0, 0, []⟩
    refine ⟨List.length_take_le limit candidates, List.length_take_le 5 _, ?_⟩
    rw [hc.1, hc.2.1]
    simp

/-- C9: for any hit list (the ranked semantic hits or the keyword hits), the
group sizes sum to the number of hits and each hit appears in exactly one
group — the single group whose `conversationId` equals the hit's; moreover
every successful search response (semantic or keyword) reports
`totalMessages` equal to the sum of its group sizes. -/
theorem search_response_partition :
    (∀ hits : List Hit,
      ((groupByConversation hits).map (fun g => g.messages.length)).sum = hits.length ∧
      ∀ h ∈ hits,
        (groupByConversation hits).countP (fun g => g.conversationId == h.conversationId) = 1 ∧
        ∀ g ∈ groupByConversation hits,
          (h.toGrouped ∈ g.messages ↔ g.conversationId = h.conversationId)) ∧
    ∀ (userId : Nat) (query : List Char) (env : SearchEnv) (r : SearchOk),
      (searchMessages userId query env).1 = SearchResponse.ok r →
      (r.conversations.map (fun g => g.messages.length)).sum = r.totalMessages := by
  refine ⟨grouping_partition_core, ?_⟩
  intro userId query env r hr
  unfold searchMessages generateEmbedding at hr
  by_cases hq : (jsTrim query).length < 3
  · rw [if_pos hq] at hr
    exact absurd hr (by simp)
  · rw [if_neg hq, if_neg hq] at hr
    cases hpq : env.provider query with
    | none =>
      rw [hpq] at hr
      simp only [performKeywordSearch] at hr
      cases hr
      exact (grouping_partition_core env.keywordRows).1
    | some qe =>
      rw [hpq] at hr
      by_cases hie : env.rows.isEmpty
      · simp only [hie, if_true, performKeywordSearch] at hr
        cases hr
        exact (grouping_partition_core env.keywordRows).1
      · rw [Bool.not_eq_true] at hie
        simp only [hie, Bool.false_eq_true, if_false] at hr
        by_cases hrel : (semanticRelevant qe env.rows).isEmpty
        · simp only [hrel, if_true, performKeywordSearch] at hr
          cases hr
          exact (grouping_partition_core env.keywordRows).1
        · rw [Bool.not_eq_true] at hrel
          simp only [hrel, Bool.false_eq_true, if_false] at hr
          cases hr
          exact (grouping_partition_core (semanticRelevant qe env.rows)).1

/-- Closed witness for C9 at a concrete one-hit list. -/
theorem search_response_partition_witness :
    ((groupByConversation [⟨1, 4, "user", ['x'], 0, "T", (1 : ℝ)⟩]).map
      (fun g => g.messages.length)).sum = 1 :=
  (search_response_partition.1 [⟨1, 4, "user", ['x'], 0, "T", (1 : ℝ)⟩]).1

/-- C2 (evidence of the code bug): backfilling a single message whose
provider call fails — `generateEmbedding` catches the failure and returns
`null`, so `generateAndStoreEmbedding` resolves normally — yields
`successCount = 1`, `failCount = 0`, an empty `errors` list, and an
unchanged store: the per-item failure is counted as a success and left
unrecorded, contrary to the claimed accounting. -/
theorem backfill_provider_failure_counted_as_success :
    generateMissingEmbeddings ⟨fun _ => none, fun _ => true, 0, fun _ => 0⟩
        [⟨1, ['h', 'e', 'l', 'l', 'o']⟩] 10 [] =
      { totalProcessed := 1, successCount := 1, failCount := 0, errors := [], store := [] } :=
  rfl

end Voxen
